import Mathlib

/-!
Shallow embedding of the OIDC backing store of the demo-shop repository
(`internal/storage/oidcstorage.go`, the authorization-request store and the
user-info store in the same package), together with theorems checking the
natural-language specification of that subsystem.

Go `map[string]V` values are modelled as association lists with unique keys;
`time.Time` is modelled as a natural number of seconds; freshly generated
UUIDs are passed as explicit parameters; Go methods that mutate the receiver
are modelled as functions returning the updated store.
-/

set_option autoImplicit false

namespace DemoShop

/-- Lookup in an association list modelling a Go map: first binding wins. -/
def mapLookup {α : Type} (k : String) : List (String × α) → Option α
  | [] => none
  | (k1, v) :: rest => if k1 = k then some v else mapLookup k rest

/-- Removal of every binding of a key, modelling Go `delete(m, k)` (a Go map
holds at most one binding per key). -/
def mapErase {α : Type} (k : String) : List (String × α) → List (String × α)
  | [] => []
  | (k1, v) :: rest => if k1 = k then mapErase k rest else (k1, v) :: mapErase k rest

/-- Insertion modelling Go `m[k] = v` (replaces any existing binding). -/
def mapInsert {α : Type} (k : String) (v : α) (m : List (String × α)) : List (String × α) :=
  (k, v) :: mapErase k m

/-- The keys of an association list are pairwise distinct, as in a Go map. -/
def keysNodup {α : Type} (m : List (String × α)) : Prop :=
  (m.map Prod.fst).Nodup

instance keysNodupDecidable {α : Type} (m : List (String × α)) : Decidable (keysNodup m) :=
  inferInstanceAs (Decidable (m.map Prod.fst).Nodup)

/-! Data model, translated from `internal/storage` of the repository. -/

/-- Models `storage.Token` (`oidcstorage.go`): an access or refresh token. -/
structure Token where
  ID : String
  UserID : String
  ClientID : String
  Scopes : List String
  CreatedAt : Nat
  ExpiresAt : Nat
  TokenType : String
  RefreshToken : String
  deriving Repr, DecidableEq

/-- Models `oidc.CodeChallenge` as far as the store reads it (PKCE pair). -/
structure CodeChallenge where
  Challenge : String
  Method : String
  deriving Repr, DecidableEq

/-- Models `storage.AuthRequest` (auth-request store source file). -/
structure AuthRequest where
  ID : String
  CreationDate : Nat
  ClientID : String
  RedirectURI : String
  State : String
  Nonce : String
  Scopes : List String
  ResponseType : String
  ResponseMode : String
  CodeChallenge : Option CodeChallenge
  UserID : String
  LoginHint : String
  MaxAge : Option Nat
  IsDone : Bool
  deriving Repr, DecidableEq

/-- Models the fields of the incoming `oidc.AuthRequest` that
`OIDCStorage.CreateAuthRequest` reads. -/
structure OIDCAuthRequest where
  ClientID : String
  RedirectURI : String
  State : String
  Nonce : String
  Scopes : List String
  ResponseType : String
  ResponseMode : String
  deriving Repr, DecidableEq

/-- Models `storage.RefreshTokenRequest` (`oidcstorage.go`). -/
structure RefreshTokenRequest where
  RefreshToken : String
  UserID : String
  ClientID : String
  Scopes : List String
  deriving Repr, DecidableEq

/-- Models the dynamic type of an `op.TokenRequest` value reaching the token
issuance methods: within this repository the only implementations are the
store's own `*storage.AuthRequest` and `*storage.RefreshTokenRequest`. -/
inductive TokenRequest where
  | authRequest (r : AuthRequest)
  | refreshTokenRequest (r : RefreshTokenRequest)
  deriving Repr, DecidableEq

/-- Values appearing in a claims map (`map[string]any` holding the string and
boolean claim values used by the store). -/
inductive ClaimValue where
  | str (s : String)
  | boolean (b : Bool)
  deriving Repr, DecidableEq

/-- Models `storage.OIDCUser` (user-info store source file). -/
structure OIDCUser where
  ID : String
  Username : String
  Password : String
  Email : String
  EmailVerified : Bool
  PreferredUsername : String
  GivenName : String
  FamilyName : String
  Locale : String
  Claims : List (String × ClaimValue)
  deriving Repr, DecidableEq

/-- Models `*oidc.Error` results (error type and description). -/
structure OIDCError where
  ErrorType : String
  Description : String
  deriving Repr, DecidableEq

/-- Models the fields of `oidc.IntrospectionResponse` that
`SetIntrospectionFromToken` writes. -/
structure IntrospectionResponse where
  Active : Bool
  ClientID : String
  Subject : String
  Expiration : Nat
  IssuedAt : Nat
  TokenType : String
  Scope : List String
  deriving Repr, DecidableEq

/-- Models `rsa.PublicKey` abstractly (modulus and exponent as numbers). -/
structure RSAPublicKey where
  N : Nat
  E : Nat
  deriving Repr, DecidableEq

/-- Models `rsa.PrivateKey`: the embedded public key plus private material. -/
structure RSAPrivateKey where
  PublicKey : RSAPublicKey
  D : Nat
  deriving Repr, DecidableEq

/-- Models `storage.SigningKey` (`oidcstorage.go`): the private signing key
together with its key ID and signature algorithm. -/
structure SigningKey where
  key : RSAPrivateKey
  keyID : String
  alg : String
  deriving Repr, DecidableEq

/-- Models `storage.Key` (`oidcstorage.go`): a published (public) key. -/
structure Key where
  keyID : String
  alg : String
  key : RSAPublicKey
  deriving Repr, DecidableEq

/-- Models the fields of `jose.JSONWebKey` that `GetKeyByIDAndClientID`
populates. -/
structure JSONWebKey where
  KeyID : String
  Algorithm : String
  Use : String
  Key : RSAPublicKey
  deriving Repr, DecidableEq

/-- Models `storage.AuthRequestStore`: in-flight authorization requests keyed
by request ID (the mutex is irrelevant in this sequential model). -/
structure AuthRequestStore where
  requests : List (String × AuthRequest)
  deriving Repr, DecidableEq

/-- Models `storage.UserInfoStore`: users keyed by user ID. -/
structure UserInfoStore where
  users : List (String × OIDCUser)
  deriving Repr, DecidableEq

/-- Models `storage.OIDCStorage`: the backing-store facade. The client
registry sub-store is omitted because no modelled operation reads it; the two
token maps are keyed by token ID and by refresh-token value respectively. -/
structure OIDCStorage where
  authRequestStore : AuthRequestStore
  userInfoStore : UserInfoStore
  tokens : List (String × Token)
  refreshTokens : List (String × Token)
  signingKey : RSAPrivateKey
  keyID : String
  deriving Repr, DecidableEq

/-! Operations, translated method by method from the Go source. Each method
that mutates the receiver returns the updated store; `now` stands for
`time.Now()` and explicit ID parameters stand for `uuid.New().String()`. -/

/-- Models the `op.ErrInvalidRefreshToken` sentinel returned by
`GetRefreshTokenInfo`. -/
def ErrInvalidRefreshToken : String := "invalid refresh token"

/-- Models `AuthRequestStore.AuthRequestByID`. -/
def AuthRequestStore.AuthRequestByID (st : AuthRequestStore) (id : String) :
    Except String AuthRequest :=
  match mapLookup id st.requests with
  | none => .error "auth request not found"
  | some request => .ok request

/-- Models `AuthRequestStore.AuthRequestByCode`: the source treats the code as
the request ID ("For simplicity, we'll treat the code as the request ID"). -/
def AuthRequestStore.AuthRequestByCode (st : AuthRequestStore) (code : String) :
    Except String AuthRequest :=
  match mapLookup code st.requests with
  | none => .error "auth request not found by code"
  | some request => .ok request

/-- Models `AuthRequestStore.SaveAuthCode`: the source ignores the code value
and only marks the request as done. -/
def AuthRequestStore.SaveAuthCode (st : AuthRequestStore) (id : String) (code : String) :
    Except String AuthRequestStore :=
  match mapLookup id st.requests with
  | some request => .ok ⟨mapInsert id { request with IsDone := true } st.requests⟩
  | none => .error "auth request not found"

/-- Models `AuthRequestStore.DeleteAuthRequest`. -/
def AuthRequestStore.DeleteAuthRequest (st : AuthRequestStore) (id : String) :
    Except String AuthRequestStore :=
  match mapLookup id st.requests with
  | none => .error "auth request not found"
  | some _ => .ok ⟨mapErase id st.requests⟩

/-- Models `UserInfoStore.GetUserByID`. -/
def UserInfoStore.GetUserByID (st : UserInfoStore) (userID : String) :
    Except String OIDCUser :=
  match mapLookup userID st.users with
  | none => .error "user not found"
  | some user => .ok user

/-- Models `OIDCUser.GetName`: trimmed given+family name, falling back to the
preferred username. -/
def OIDCUser.GetName (u : OIDCUser) : String :=
  let name := (u.GivenName ++ " " ++ u.FamilyName).trim
  if name = "" then u.PreferredUsername else name

/-- Models `OIDCUser.GetClaims`: the standard claims, then the custom claim
map merged on top. -/
def OIDCUser.GetClaims (u : OIDCUser) : List (String × ClaimValue) :=
  let claims : List (String × ClaimValue) := []
  let claims := mapInsert "sub" (.str u.ID) claims
  let claims := mapInsert "email" (.str u.Email) claims
  let claims := mapInsert "email_verified" (.boolean u.EmailVerified) claims
  let claims := mapInsert "preferred_username" (.str u.PreferredUsername) claims
  let claims := mapInsert "given_name" (.str u.GivenName) claims
  let claims := mapInsert "family_name" (.str u.FamilyName) claims
  let claims := mapInsert "name" (.str u.GetName) claims
  let claims := mapInsert "locale" (.str u.Locale) claims
  u.Claims.foldl (fun acc kv => mapInsert kv.1 kv.2 acc) claims

/-- Models `OIDCStorage.CreateAuthRequest` (`oidcstorage.go`): converts the
incoming request, stores it as pending under a fresh ID, and returns it. -/
def OIDCStorage.CreateAuthRequest (s : OIDCStorage) (authReq : OIDCAuthRequest)
    (userID : String) (id : String) (now : Nat) : AuthRequest × OIDCStorage :=
  let request : AuthRequest := {
    ID := id
    CreationDate := now
    ClientID := authReq.ClientID
    RedirectURI := authReq.RedirectURI
    State := authReq.State
    Nonce := authReq.Nonce
    Scopes := authReq.Scopes
    ResponseType := authReq.ResponseType
    ResponseMode := authReq.ResponseMode
    CodeChallenge := none
    UserID := userID
    LoginHint := ""
    MaxAge := none
    IsDone := false }
  (request,
    { s with authRequestStore := ⟨mapInsert id request s.authRequestStore.requests⟩ })

/-- Models `OIDCStorage.AuthRequestByID` (delegation). -/
def OIDCStorage.AuthRequestByID (s : OIDCStorage) (id : String) : Except String AuthRequest :=
  s.authRequestStore.AuthRequestByID id

/-- Models `OIDCStorage.AuthRequestByCode` (delegation). -/
def OIDCStorage.AuthRequestByCode (s : OIDCStorage) (code : String) : Except String AuthRequest :=
  s.authRequestStore.AuthRequestByCode code

/-- Models `OIDCStorage.SaveAuthCode` (delegation). -/
def OIDCStorage.SaveAuthCode (s : OIDCStorage) (id : String) (code : String) :
    Except String OIDCStorage :=
  match s.authRequestStore.SaveAuthCode id code with
  | .ok st => .ok { s with authRequestStore := st }
  | .error e => .error e

/-- Models `OIDCStorage.DeleteAuthRequest` (delegation). -/
def OIDCStorage.DeleteAuthRequest (s : OIDCStorage) (id : String) :
    Except String OIDCStorage :=
  match s.authRequestStore.DeleteAuthRequest id with
  | .ok st => .ok { s with authRequestStore := st }
  | .error e => .error e

/-- Models `OIDCStorage.CreateAccessToken`: only the store's own
`*AuthRequest` is an accepted token-request shape; other shapes produce the
"unsupported token request type" error with no state change. -/
def OIDCStorage.CreateAccessToken (s : OIDCStorage) (request : TokenRequest)
    (tokenID : String) (now : Nat) : Except String (String × Nat) × OIDCStorage :=
  let expiresAt := now + 3600
  match request with
  | .authRequest req =>
    let token : Token := {
      ID := tokenID
      UserID := req.UserID
      ClientID := req.ClientID
      Scopes := req.Scopes
      CreatedAt := now
      ExpiresAt := expiresAt
      TokenType := "access"
      RefreshToken := "" }
    (.ok (tokenID, expiresAt), { s with tokens := mapInsert tokenID token s.tokens })
  | .refreshTokenRequest _ => (.error "unsupported token request type", s)

/-- Models `OIDCStorage.CreateAccessAndRefreshTokens`: inserts the new pair
(access token carrying the refresh back-reference, refresh token into both
maps), then, when `currentRefreshToken` is non-empty and still present,
deletes the old refresh token from `tokens` (under its own ID) and from
`refreshTokens`. -/
def OIDCStorage.CreateAccessAndRefreshTokens (s : OIDCStorage) (request : TokenRequest)
    (currentRefreshToken : String) (accessTokenID : String) (refreshTokenID : String)
    (now : Nat) : Except String (String × String × Nat) × OIDCStorage :=
  let expiresAt := now + 3600
  match request with
  | .authRequest req =>
    let accessToken : Token := {
      ID := accessTokenID
      UserID := req.UserID
      ClientID := req.ClientID
      Scopes := req.Scopes
      CreatedAt := now
      ExpiresAt := expiresAt
      TokenType := "access"
      RefreshToken := refreshTokenID }
    let refreshToken : Token := {
      ID := refreshTokenID
      UserID := req.UserID
      ClientID := req.ClientID
      Scopes := req.Scopes
      CreatedAt := now
      ExpiresAt := now + 2592000
      TokenType := "refresh"
      RefreshToken := "" }
    let tokens := mapInsert refreshTokenID refreshToken
      (mapInsert accessTokenID accessToken s.tokens)
    let refreshTokens := mapInsert refreshTokenID refreshToken s.refreshTokens
    if currentRefreshToken ≠ "" then
      match mapLookup currentRefreshToken refreshTokens with
      | some oldToken =>
        (.ok (accessTokenID, refreshTokenID, expiresAt),
          { s with
            tokens := mapErase oldToken.ID tokens
            refreshTokens := mapErase currentRefreshToken refreshTokens })
      | none =>
        (.ok (accessTokenID, refreshTokenID, expiresAt),
          { s with tokens := tokens, refreshTokens := refreshTokens })
    else
      (.ok (accessTokenID, refreshTokenID, expiresAt),
        { s with tokens := tokens, refreshTokens := refreshTokens })
  | .refreshTokenRequest _ => (.error "unsupported token request type", s)

/-- Models `OIDCStorage.TokenRequestByRefreshToken`: unknown values and
expired tokens are rejected; otherwise a `RefreshTokenRequest` is returned. -/
def OIDCStorage.TokenRequestByRefreshToken (s : OIDCStorage) (refreshTokenID : String)
    (now : Nat) : Except String RefreshTokenRequest :=
  match mapLookup refreshTokenID s.refreshTokens with
  | none => .error "refresh token not found"
  | some token =>
    if token.ExpiresAt < now then .error "refresh token expired"
    else .ok {
      RefreshToken := refreshTokenID
      UserID := token.UserID
      ClientID := token.ClientID
      Scopes := token.Scopes }

/-- Models `OIDCStorage.TerminateSession`: removes every token of the given
user and client from `tokens`, and for each such token of type "refresh" also
removes the binding of its ID from `refreshTokens`. -/
def OIDCStorage.TerminateSession (s : OIDCStorage) (userID : String) (clientID : String) :
    OIDCStorage :=
  { s with
    tokens := s.tokens.filter
      (fun p => !(p.2.UserID == userID && p.2.ClientID == clientID))
    refreshTokens := s.refreshTokens.filter
      (fun p => !(s.tokens.any (fun q =>
        q.2.UserID == userID && q.2.ClientID == clientID &&
        q.2.TokenType == "refresh" && q.2.ID == p.1))) }

/-- Models `OIDCStorage.RevokeToken`: deletes a token found by ID (and, for a
refresh token, its `refreshTokens` binding), else a refresh token found by
value; an unknown value yields an `invalid_request` error. -/
def OIDCStorage.RevokeToken (s : OIDCStorage) (tokenOrTokenID : String)
    (userID : String) (clientID : String) : Option OIDCError × OIDCStorage :=
  match mapLookup tokenOrTokenID s.tokens with
  | some token =>
    (none,
      { s with
        tokens := mapErase tokenOrTokenID s.tokens
        refreshTokens :=
          if token.TokenType = "refresh" then mapErase tokenOrTokenID s.refreshTokens
          else s.refreshTokens })
  | none =>
    match mapLookup tokenOrTokenID s.refreshTokens with
    | some token =>
      (none,
        { s with
          tokens := mapErase token.ID s.tokens
          refreshTokens := mapErase tokenOrTokenID s.refreshTokens })
    | none =>
      (some { ErrorType := "invalid_request", Description := "token not found" }, s)

/-- Models `OIDCStorage.GetRefreshTokenInfo`: rejects unknown values and
client mismatches with `op.ErrInvalidRefreshToken`; the source performs no
expiry comparison. -/
def OIDCStorage.GetRefreshTokenInfo (s : OIDCStorage) (clientID : String) (token : String) :
    Except String (String × String) :=
  match mapLookup token s.refreshTokens with
  | none => .error ErrInvalidRefreshToken
  | some refreshToken =>
    if refreshToken.ClientID ≠ clientID then .error ErrInvalidRefreshToken
    else .ok (refreshToken.UserID, refreshToken.ID)

/-- Models `OIDCStorage.SigningKey` (the Go method always returns a nil
error, so no error channel is modelled). -/
def OIDCStorage.SigningKey (s : OIDCStorage) : SigningKey :=
  { key := s.signingKey, keyID := s.keyID, alg := "RS256" }

/-- Models `OIDCStorage.KeySet`: the public half of the signing key under the
same key ID and algorithm. -/
def OIDCStorage.KeySet (s : OIDCStorage) : List Key :=
  [{ keyID := s.keyID, alg := "RS256", key := s.signingKey.PublicKey }]

/-- Models `OIDCStorage.GetKeyByIDAndClientID`: only the active key ID
resolves; every other key ID is rejected with "key not found". -/
def OIDCStorage.GetKeyByIDAndClientID (s : OIDCStorage) (keyID : String)
    (clientID : String) : Except String JSONWebKey :=
  if keyID ≠ s.keyID then .error "key not found"
  else .ok {
    KeyID := s.keyID
    Algorithm := "RS256"
    Use := "sig"
    Key := s.signingKey.PublicKey }

/-- Models `OIDCStorage.SetIntrospectionFromToken`: absent or expired tokens
only clear the active flag (never an error); a live token populates the
response from the stored token. -/
def OIDCStorage.SetIntrospectionFromToken (s : OIDCStorage) (resp : IntrospectionResponse)
    (tokenID : String) (subject : String) (clientID : String) (now : Nat) :
    Except String IntrospectionResponse :=
  match mapLookup tokenID s.tokens with
  | none => .ok { resp with Active := false }
  | some token =>
    if token.ExpiresAt < now then .ok { resp with Active := false }
    else .ok { resp with
      Active := true
      ClientID := token.ClientID
      Subject := token.UserID
      Expiration := token.ExpiresAt
      IssuedAt := token.CreatedAt
      TokenType := "Bearer"
      Scope := token.Scopes }

/-- Models one arm of the scope loop body of `GetPrivateClaimsFromScopes`:
copy one claim from the user claims into the result when present. -/
def copyClaim (key : String) (userClaims : List (String × ClaimValue))
    (claims : List (String × ClaimValue)) : List (String × ClaimValue) :=
  match mapLookup key userClaims with
  | some v => mapInsert key v claims
  | none => claims

/-- Models the body of the scope loop of `GetPrivateClaimsFromScopes`: the
"profile" and "email" cases copy their claims, any other scope is ignored. -/
def applyScopeClaims (userClaims : List (String × ClaimValue))
    (claims : List (String × ClaimValue)) (scope : String) : List (String × ClaimValue) :=
  if scope = "profile" then
    copyClaim "locale" userClaims
      (copyClaim "preferred_username" userClaims
        (copyClaim "family_name" userClaims
          (copyClaim "given_name" userClaims
            (copyClaim "name" userClaims claims))))
  else if scope = "email" then
    copyClaim "email_verified" userClaims (copyClaim "email" userClaims claims)
  else claims

/-- Models `OIDCStorage.GetPrivateClaimsFromScopes`: scope-selected claims
from the user's claim set, with the user's custom claim map merged on top. -/
def OIDCStorage.GetPrivateClaimsFromScopes (s : OIDCStorage) (userID : String)
    (clientID : String) (scopes : List String) :
    Except String (List (String × ClaimValue)) :=
  match s.userInfoStore.GetUserByID userID with
  | .error e => .error e
  | .ok user =>
    let userClaims := user.GetClaims
    let claims := scopes.foldl (applyScopeClaims userClaims) []
    .ok (user.Claims.foldl (fun acc kv => mapInsert kv.1 kv.2 acc) claims)

/-! A small command language over the store: one constructor per mutating
method of the facade, used to speak about sequences of calls. -/

/-- One mutating call on the facade, with the nondeterministic inputs (fresh
IDs, clock readings) recorded as data. -/
inductive StoreOp where
  | createAuthRequest (authReq : OIDCAuthRequest) (userID : String) (id : String) (now : Nat)
  | saveAuthCode (id : String) (code : String)
  | deleteAuthRequest (id : String)
  | createAccessToken (request : TokenRequest) (tokenID : String) (now : Nat)
  | createAccessAndRefreshTokens (request : TokenRequest) (currentRefreshToken : String)
      (accessTokenID : String) (refreshTokenID : String) (now : Nat)
  | terminateSession (userID : String) (clientID : String)
  | revokeToken (tokenOrTokenID : String) (userID : String) (clientID : String)
  deriving Repr

/-- The store reached after one mutating call (failed calls leave the store
unchanged, as in the source). -/
def applyOp (op : StoreOp) (s : OIDCStorage) : OIDCStorage :=
  match op with
  | .createAuthRequest authReq userID id now => (s.CreateAuthRequest authReq userID id now).2
  | .saveAuthCode id code =>
    match s.SaveAuthCode id code with
    | .ok s2 => s2
    | .error _ => s
  | .deleteAuthRequest id =>
    match s.DeleteAuthRequest id with
    | .ok s2 => s2
    | .error _ => s
  | .createAccessToken request tokenID now => (s.CreateAccessToken request tokenID now).2
  | .createAccessAndRefreshTokens request currentRefreshToken accessTokenID refreshTokenID now =>
    (s.CreateAccessAndRefreshTokens request currentRefreshToken accessTokenID refreshTokenID now).2
  | .terminateSession userID clientID => s.TerminateSession userID clientID
  | .revokeToken tokenOrTokenID userID clientID => (s.RevokeToken tokenOrTokenID userID clientID).2

/-- The store reached after a sequence of mutating calls. -/
def applyOps (ops : List StoreOp) (s : OIDCStorage) : OIDCStorage :=
  ops.foldl (fun acc op => applyOp op acc) s

/-- Well-formedness of the two token maps, as established by the store's own
operations: keys are unique (they model Go maps), every `tokens` binding is
keyed by its token's ID, and every `refreshTokens` binding is a token of type
"refresh" also present in `tokens` under the same key. -/
def TokensWF (s : OIDCStorage) : Prop :=
  keysNodup s.tokens ∧ keysNodup s.refreshTokens ∧
  (∀ p ∈ s.tokens, p.2.ID = p.1) ∧
  (∀ p ∈ s.refreshTokens, p.2.TokenType = "refresh" ∧ mapLookup p.1 s.tokens = some p.2)

instance TokensWFDecidable (s : OIDCStorage) : Decidable (TokensWF s) := by
  unfold TokensWF
  infer_instance

/-- Completed-request discipline on the stored authorization requests: every
stored request carries a non-empty subject. -/
def RequestsSubjectsNonEmpty (s : OIDCStorage) : Prop :=
  ∀ p ∈ s.authRequestStore.requests, p.2.UserID ≠ ""

instance RequestsSubjectsNonEmptyDecidable (s : OIDCStorage) :
    Decidable (RequestsSubjectsNonEmpty s) := by
  unfold RequestsSubjectsNonEmpty
  infer_instance

deriving instance DecidableEq for Except

/-! Concrete sample data, mirroring the demo seed data of the repository and
used to evaluate the definitions at explicit inputs. -/

/-- Sample RSA key material (stands for a generated 2048-bit key). -/
def sampleRSAKey : RSAPrivateKey := { PublicKey := { N := 3233, E := 17 }, D := 413 }

/-- Sample stored refresh token `r1` of user `u1` and client `c1`. -/
def sampleRefreshToken : Token :=
  { ID := "r1", UserID := "u1", ClientID := "c1", Scopes := ["openid"],
    CreatedAt := 0, ExpiresAt := 100, TokenType := "refresh", RefreshToken := "" }

/-- Sample stored access token `a1` paired with refresh token `r1`. -/
def sampleAccessToken : Token :=
  { ID := "a1", UserID := "u1", ClientID := "c1", Scopes := ["openid"],
    CreatedAt := 0, ExpiresAt := 100, TokenType := "access", RefreshToken := "r1" }

/-- Sample refresh token `r2` of a different user `u2`. -/
def sampleOtherToken : Token :=
  { ID := "r2", UserID := "u2", ClientID := "c1", Scopes := ["openid"],
    CreatedAt := 0, ExpiresAt := 100, TokenType := "refresh", RefreshToken := "" }

/-- Sample facade state holding the three tokens above. -/
def sampleTokenStore : OIDCStorage :=
  { authRequestStore := ⟨[]⟩, userInfoStore := ⟨[]⟩,
    tokens := [("a1", sampleAccessToken), ("r1", sampleRefreshToken),
      ("r2", sampleOtherToken)],
    refreshTokens := [("r1", sampleRefreshToken), ("r2", sampleOtherToken)],
    signingKey := sampleRSAKey, keyID := "kid1" }

/-- Sample incoming authorization request. -/
def sampleOIDCAuthRequest : OIDCAuthRequest :=
  { ClientID := "c1", RedirectURI := "http://localhost:8080/callback",
    State := "st", Nonce := "n", Scopes := ["openid", "profile"],
    ResponseType := "code", ResponseMode := "" }

/-- Sample stored authorization request `q1`, authenticated as `u1`. -/
def sampleAuthRequest : AuthRequest :=
  { ID := "q1", CreationDate := 0, ClientID := "c1",
    RedirectURI := "http://localhost:8080/callback", State := "st", Nonce := "n",
    Scopes := ["openid", "profile"], ResponseType := "code", ResponseMode := "",
    CodeChallenge := none, UserID := "u1", LoginHint := "", MaxAge := none,
    IsDone := false }

/-- Sample facade state holding one pending authorization request. -/
def sampleRequestStore : OIDCStorage :=
  { authRequestStore := ⟨[("q1", sampleAuthRequest)]⟩, userInfoStore := ⟨[]⟩,
    tokens := [], refreshTokens := [], signingKey := sampleRSAKey, keyID := "kid1" }

/-- Sample user mirroring the seeded demo user (custom claims hold only a
role claim). -/
def sampleUser : OIDCUser :=
  { ID := "user1", Username := "demo@example.com", Password := "password123",
    Email := "demo@example.com", EmailVerified := true, PreferredUsername := "demo",
    GivenName := "Demo", FamilyName := "User", Locale := "en",
    Claims := [("role", .str "user")] }

/-- Sample facade state holding the demo user. -/
def sampleUserStore : OIDCStorage :=
  { authRequestStore := ⟨[]⟩, userInfoStore := ⟨[("user1", sampleUser)]⟩,
    tokens := [], refreshTokens := [], signingKey := sampleRSAKey, keyID := "kid1" }

/-- Sample empty facade state. -/
def emptyStore : OIDCStorage :=
  { authRequestStore := ⟨[]⟩, userInfoStore := ⟨[]⟩, tokens := [],
    refreshTokens := [], signingKey := sampleRSAKey, keyID := "kid1" }

/-- Sample refresh-grant token request, as `TokenRequestByRefreshToken`
returns it for `r1`. -/
def sampleRefreshTokenRequest : RefreshTokenRequest :=
  { RefreshToken := "r1", UserID := "u1", ClientID := "c1", Scopes := ["openid"] }

/-- Sample blank introspection response (all fields zeroed). -/
def sampleIntrospection : IntrospectionResponse :=
  { Active := false, ClientID := "", Subject := "", Expiration := 0, IssuedAt := 0,
    TokenType := "", Scope := [] }

/-- The sample request store after `SaveAuthCode "q1" "code1"`: the request
is marked done, the code is not recorded anywhere. -/
def sampleRequestStoreDone : OIDCStorage :=
  { sampleRequestStore with
    authRequestStore := ⟨[("q1", { sampleAuthRequest with IsDone := true })]⟩ }

/-! Lemmas about the map model. -/

theorem mapLookup_eq_none_of_not_mem {α : Type} {k : String} {m : List (String × α)}
    (h : k ∉ m.map Prod.fst) : mapLookup k m = none := by
  induction m with
  | nil => rfl
  | cons p rest ih =>
    obtain ⟨k1, v⟩ := p
    simp only [List.map_cons, List.mem_cons] at h
    push_neg at h
    rw [mapLookup, if_neg (fun hh => h.1 hh.symm)]
    exact ih h.2

theorem mem_of_mapLookup {α : Type} {k : String} {v : α} {m : List (String × α)}
    (h : mapLookup k m = some v) : (k, v) ∈ m := by
  induction m with
  | nil => simp [mapLookup] at h
  | cons p rest ih =>
    obtain ⟨k1, w⟩ := p
    by_cases hk : k1 = k
    · subst hk
      rw [mapLookup, if_pos rfl] at h
      injection h with hv
      subst hv
      exact List.mem_cons_self _ _
    · rw [mapLookup, if_neg hk] at h
      exact List.mem_cons_of_mem _ (ih h)

theorem mapLookup_of_mem_nodup {α : Type} {k : String} {v : α} {m : List (String × α)}
    (hnd : keysNodup m) (h : (k, v) ∈ m) : mapLookup k m = some v := by
  induction m with
  | nil => simp at h
  | cons p rest ih =>
    obtain ⟨k1, w⟩ := p
    simp only [keysNodup, List.map_cons, List.nodup_cons] at hnd
    rcases List.mem_cons.mp h with hh | hh
    · rw [Prod.mk.injEq] at hh
      obtain ⟨h1, h2⟩ := hh
      subst h1
      subst h2
      rw [mapLookup, if_pos rfl]
    · have hne : k1 ≠ k := by
        intro he
        subst he
        exact hnd.1 (List.mem_map.mpr ⟨(k1, v), hh, rfl⟩)
      rw [mapLookup, if_neg hne]
      exact ih hnd.2 hh

theorem mapLookup_erase {α : Type} (k j : String) (m : List (String × α)) :
    mapLookup k (mapErase j m) = if k = j then none else mapLookup k m := by
  induction m with
  | nil => simp [mapErase, mapLookup]
  | cons p rest ih =>
    obtain ⟨k1, v⟩ := p
    by_cases hj : k1 = j
    · subst hj
      rw [mapErase, if_pos rfl, ih]
      by_cases hk : k = k1
      · simp [hk]
      · rw [if_neg hk, if_neg hk, mapLookup, if_neg (fun hh => hk hh.symm)]
    · rw [mapErase, if_neg hj, mapLookup]
      by_cases hk : k1 = k
      · subst hk
        rw [if_pos rfl, if_neg (fun hh => hj hh), mapLookup, if_pos rfl]
      · rw [if_neg hk, ih]
        by_cases hkj : k = j
        · simp [hkj]
        · rw [if_neg hkj, if_neg hkj, mapLookup, if_neg hk]

theorem mapLookup_insert {α : Type} (k j : String) (v : α) (m : List (String × α)) :
    mapLookup k (mapInsert j v m) = if j = k then some v else mapLookup k m := by
  by_cases h : j = k
  · subst h
    rw [mapInsert, mapLookup, if_pos rfl, if_pos rfl]
  · rw [mapInsert, mapLookup, if_neg h, if_neg h, mapLookup_erase,
      if_neg (fun hh => h hh.symm)]

theorem mapLookup_filter {α : Type} (p : String × α → Bool) {m : List (String × α)}
    (hnd : keysNodup m) (k : String) :
    mapLookup k (m.filter p) =
      (mapLookup k m).bind (fun v => if p (k, v) then some v else none) := by
  induction m with
  | nil => simp [mapLookup]
  | cons q rest ih =>
    obtain ⟨k1, v⟩ := q
    simp only [keysNodup, List.map_cons, List.nodup_cons] at hnd
    have ihr := ih hnd.2
    by_cases hk : k1 = k
    · subst hk
      have hnone : mapLookup k1 rest = none := mapLookup_eq_none_of_not_mem hnd.1
      by_cases hp : p (k1, v) = true
      · simp [List.filter_cons, hp, mapLookup]
      · simp only [Bool.not_eq_true] at hp
        simp [List.filter_cons, hp, mapLookup, ihr, hnone]
    · by_cases hp : p (k1, v) = true
      · simp [List.filter_cons, hp, mapLookup, hk, ihr]
      · simp only [Bool.not_eq_true] at hp
        simp [List.filter_cons, hp, mapLookup, hk, ihr]

/-- C3 (confirmed): a token-request value that is not the store's own
AuthRequest — in particular a RefreshTokenRequest, the shape that
TokenRequestByRefreshToken itself returns — makes both CreateAccessToken and
CreateAccessAndRefreshTokens return the "unsupported token request type"
error and leave the whole store (both token maps included) unchanged, even
when currentRefreshToken names a stored refresh token. -/
theorem unsupported_token_request_rejected (s : OIDCStorage) (request : TokenRequest)
    (tokenID currentRefreshToken accessTokenID refreshTokenID : String) (now now2 : Nat)
    (h : ∀ a : AuthRequest, request ≠ .authRequest a) :
    s.CreateAccessToken request tokenID now =
      (.error "unsupported token request type", s) ∧
    s.CreateAccessAndRefreshTokens request currentRefreshToken accessTokenID
        refreshTokenID now2 =
      (.error "unsupported token request type", s) := by
  cases request with
  | authRequest a => exact absurd rfl (h a)
  | refreshTokenRequest r => exact ⟨rfl, rfl⟩

/-- Witness for C3 at the sample store and the sample refresh-grant
request. -/
theorem unsupported_token_request_rejected_witness :
    sampleTokenStore.CreateAccessToken (.refreshTokenRequest sampleRefreshTokenRequest)
        "a9" 0 =
      (.error "unsupported token request type", sampleTokenStore) ∧
    sampleTokenStore.CreateAccessAndRefreshTokens
        (.refreshTokenRequest sampleRefreshTokenRequest) "r1" "a9" "r9" 0 =
      (.error "unsupported token request type", sampleTokenStore) :=
  unsupported_token_request_rejected sampleTokenStore
    (.refreshTokenRequest sampleRefreshTokenRequest) "a9" "r1" "a9" "r9" 0 0
    (fun a hc => TokenRequest.noConfusion hc)

/-- C7 (confirmed): introspection sets active=false whenever the token is
absent or expired, never returns an error, and for a live token reports
active=true with the token's client, subject, expiry, issuance time and
scopes. -/
theorem introspection_spec (s : OIDCStorage) (resp : IntrospectionResponse)
    (tokenID subject clientID : String) (now : Nat) :
    (mapLookup tokenID s.tokens = none →
      s.SetIntrospectionFromToken resp tokenID subject clientID now =
        .ok { resp with Active := false }) ∧
    (∀ token, mapLookup tokenID s.tokens = some token → token.ExpiresAt < now →
      s.SetIntrospectionFromToken resp tokenID subject clientID now =
        .ok { resp with Active := false }) ∧
    (∀ token, mapLookup tokenID s.tokens = some token → ¬token.ExpiresAt < now →
      s.SetIntrospectionFromToken resp tokenID subject clientID now =
        .ok { resp with
              Active := true
              ClientID := token.ClientID
              Subject := token.UserID
              Expiration := token.ExpiresAt
              IssuedAt := token.CreatedAt
              TokenType := "Bearer"
              Scope := token.Scopes }) ∧
    (∀ e, s.SetIntrospectionFromToken resp tokenID subject clientID now ≠ .error e) := by
  refine ⟨?_, ?_, ?_, ?_⟩
  · intro h
    simp [OIDCStorage.SetIntrospectionFromToken, h]
  · intro token h hexp
    simp [OIDCStorage.SetIntrospectionFromToken, h, hexp]
  · intro token h hexp
    simp [OIDCStorage.SetIntrospectionFromToken, h, hexp]
  · intro e
    rcases hl : mapLookup tokenID s.tokens with _ | token
    · simp [OIDCStorage.SetIntrospectionFromToken, hl]
    · by_cases hexp : token.ExpiresAt < now <;>
        simp [OIDCStorage.SetIntrospectionFromToken, hl, hexp]

/-- Witness for C7: introspecting the live sample access token. -/
theorem introspection_spec_witness :
    sampleTokenStore.SetIntrospectionFromToken sampleIntrospection "a1" "u1" "c1" 50 =
      .ok { sampleIntrospection with
            Active := true
            ClientID := sampleAccessToken.ClientID
            Subject := sampleAccessToken.UserID
            Expiration := sampleAccessToken.ExpiresAt
            IssuedAt := sampleAccessToken.CreatedAt
            TokenType := "Bearer"
            Scope := sampleAccessToken.Scopes } :=
  (introspection_spec sampleTokenStore sampleIntrospection "a1" "u1" "c1" 50).2.2.1
    sampleAccessToken (by decide) (by decide)

/-- C6 (corrected): revoking a value that matches no stored token and no
stored refresh token leaves the store unchanged but returns an
invalid_request error, not a clean nil result. -/
theorem revoke_unknown_token (s : OIDCStorage) (tokenOrTokenID userID clientID : String)
    (h1 : mapLookup tokenOrTokenID s.tokens = none)
    (h2 : mapLookup tokenOrTokenID s.refreshTokens = none) :
    s.RevokeToken tokenOrTokenID userID clientID =
      (some { ErrorType := "invalid_request", Description := "token not found" }, s) := by
  simp [OIDCStorage.RevokeToken, h1, h2]

/-- Witness for C6 at the empty store. -/
theorem revoke_unknown_token_witness :
    emptyStore.RevokeToken "zzz" "u1" "c1" =
      (some { ErrorType := "invalid_request", Description := "token not found" },
        emptyStore) :=
  revoke_unknown_token emptyStore "zzz" "u1" "c1" (by decide) (by decide)

/-- C6 counterexample: revoking the unknown value "zzz" reports a non-nil
error instead of the clean negative result the claim demands (the state is
indeed unchanged). -/
theorem revoke_unknown_token_cex :
    mapLookup "zzz" emptyStore.tokens = none ∧
    mapLookup "zzz" emptyStore.refreshTokens = none ∧
    (emptyStore.RevokeToken "zzz" "u1" "c1").1 ≠ none ∧
    (emptyStore.RevokeToken "zzz" "u1" "c1").2 = emptyStore := by decide

/-- C4 (corrected): GetRefreshTokenInfo rejects unknown values and client-ID
mismatches with ErrInvalidRefreshToken but performs no expiry comparison:
a stored refresh token whose expiry lies before now still yields its
subject and token ID when the client matches. -/
theorem refreshTokenInfo_spec (s : OIDCStorage) (clientID tok : String) :
    (mapLookup tok s.refreshTokens = none →
      s.GetRefreshTokenInfo clientID tok = .error ErrInvalidRefreshToken) ∧
    (∀ rt, mapLookup tok s.refreshTokens = some rt → rt.ClientID ≠ clientID →
      s.GetRefreshTokenInfo clientID tok = .error ErrInvalidRefreshToken) ∧
    (∀ rt now, mapLookup tok s.refreshTokens = some rt → rt.ClientID = clientID →
      rt.ExpiresAt < now →
      s.GetRefreshTokenInfo clientID tok = .ok (rt.UserID, rt.ID)) := by
  refine ⟨?_, ?_, ?_⟩
  · intro h
    simp [OIDCStorage.GetRefreshTokenInfo, h]
  · intro rt h hcl
    simp [OIDCStorage.GetRefreshTokenInfo, h, hcl]
  · intro rt now h hcl hexp
    simp [OIDCStorage.GetRefreshTokenInfo, h, hcl]

/-- Witness for C4: the sample refresh token, already expired at time 200,
is still resolved. -/
theorem refreshTokenInfo_spec_witness :
    sampleTokenStore.GetRefreshTokenInfo "c1" "r1" =
      .ok (sampleRefreshToken.UserID, sampleRefreshToken.ID) :=
  (refreshTokenInfo_spec sampleTokenStore "c1" "r1").2.2 sampleRefreshToken 200
    (by decide) (by decide) (by decide)

/-- C4 counterexample: the stored refresh token `r1` has expiry 100 < 200,
yet GetRefreshTokenInfo returns its subject and token ID instead of an
Expired/Invalid rejection. -/
theorem refreshTokenInfo_expired_cex :
    mapLookup "r1" sampleTokenStore.refreshTokens = some sampleRefreshToken ∧
    sampleRefreshToken.ExpiresAt < 200 ∧
    sampleTokenStore.GetRefreshTokenInfo "c1" "r1" = .ok ("u1", "r1") := by decide

theorem mem_of_mem_mapErase {α : Type} {p : String × α} {k : String}
    {m : List (String × α)} (h : p ∈ mapErase k m) : p ∈ m := by
  induction m with
  | nil => simp [mapErase] at h
  | cons q rest ih =>
    obtain ⟨k1, v⟩ := q
    by_cases hk : k1 = k
    · rw [mapErase, if_pos hk] at h
      exact List.mem_cons_of_mem _ (ih h)
    · rw [mapErase, if_neg hk] at h
      rcases List.mem_cons.mp h with hh | hh
      · exact hh ▸ List.mem_cons_self _ _
      · exact List.mem_cons_of_mem _ (ih hh)

theorem mem_mapInsert_cases {α : Type} {p : String × α} {k : String} {v : α}
    {m : List (String × α)} (h : p ∈ mapInsert k v m) : p = (k, v) ∨ p ∈ m := by
  rcases List.mem_cons.mp h with hh | hh
  · exact Or.inl hh
  · exact Or.inr (mem_of_mem_mapErase hh)

/-- C2 (corrected): getByID returns the request just created, and code lookup
degenerates to ID lookup: AuthRequestByCode succeeds exactly when ID lookup
of the code string does, because SaveAuthCode records no code-to-request
association — it only marks the request done — so a code that is not itself
a request ID is not resolvable. -/
theorem authRequest_code_lookup (s : OIDCStorage) (authReq : OIDCAuthRequest)
    (userID id code c : String) (now : Nat) :
    ((s.CreateAuthRequest authReq userID id now).2.AuthRequestByID id =
      .ok (s.CreateAuthRequest authReq userID id now).1) ∧
    (∀ r, s.AuthRequestByCode c = .ok r ↔ s.AuthRequestByID c = .ok r) ∧
    (∀ s2, s.SaveAuthCode id code = .ok s2 →
      ∃ r, mapLookup id s.authRequestStore.requests = some r ∧
        s2.authRequestStore.requests =
          mapInsert id { r with IsDone := true } s.authRequestStore.requests) ∧
    (∀ s2, s.SaveAuthCode id code = .ok s2 → code ≠ id →
      mapLookup code s.authRequestStore.requests = none →
      s2.AuthRequestByCode code = .error "auth request not found by code") := by
  have hsave : ∀ s2, s.SaveAuthCode id code = .ok s2 →
      ∃ r, mapLookup id s.authRequestStore.requests = some r ∧
        s2.authRequestStore.requests =
          mapInsert id { r with IsDone := true } s.authRequestStore.requests := by
    intro s2 h
    rcases hl : mapLookup id s.authRequestStore.requests with _ | r
    · simp [OIDCStorage.SaveAuthCode, AuthRequestStore.SaveAuthCode, hl] at h
    · refine ⟨r, rfl, ?_⟩
      simp only [OIDCStorage.SaveAuthCode, AuthRequestStore.SaveAuthCode, hl] at h
      injection h with h2
      rw [← h2]
  refine ⟨?_, ?_, hsave, ?_⟩
  · simp [OIDCStorage.CreateAuthRequest, OIDCStorage.AuthRequestByID,
      AuthRequestStore.AuthRequestByID, mapLookup_insert]
  · intro r
    rcases hl : mapLookup c s.authRequestStore.requests with _ | a <;>
      simp [OIDCStorage.AuthRequestByCode, AuthRequestStore.AuthRequestByCode,
        OIDCStorage.AuthRequestByID, AuthRequestStore.AuthRequestByID, hl]
  · intro s2 h hne hnone
    obtain ⟨r, hl, hreq⟩ := hsave s2 h
    have hid : ¬ id = code := fun hh => hne hh.symm
    simp [OIDCStorage.AuthRequestByCode, AuthRequestStore.AuthRequestByCode, hreq,
      mapLookup_insert, hid, hnone]

/-- Witness for C2: the round trip at a fresh request `q2`, and the failed
code lookup after `SaveAuthCode "q1" "code1"` on the sample store. -/
theorem authRequest_code_lookup_witness :
    (sampleRequestStore.CreateAuthRequest sampleOIDCAuthRequest "u1" "q2" 5).2.AuthRequestByID
        "q2" =
      .ok (sampleRequestStore.CreateAuthRequest sampleOIDCAuthRequest "u1" "q2" 5).1 ∧
    sampleRequestStoreDone.AuthRequestByCode "code1" =
      .error "auth request not found by code" :=
  ⟨(authRequest_code_lookup sampleRequestStore sampleOIDCAuthRequest "u1" "q2" "x" "y" 5).1,
    (authRequest_code_lookup sampleRequestStore sampleOIDCAuthRequest "u1" "q1" "code1"
        "y" 5).2.2.2
      sampleRequestStoreDone (by decide) (by decide) (by decide)⟩

/-- C2 counterexample: after SaveAuthCode associates "code1" with request
"q1", AuthRequestByCode "code1" reports not-found instead of returning the
request. -/
theorem authRequest_code_lookup_cex :
    (sampleRequestStore.SaveAuthCode "q1" "code1").toOption.map
        (fun s2 => s2.AuthRequestByCode "code1") =
      some (.error "auth request not found by code") := by decide

/-- C9 (corrected): SaveAuthCode marks a request done without touching its
subject, so the pending-or-completed discipline holds on stores whose
requests all carry non-empty subjects — a property preserved by
CreateAuthRequest with a non-empty userID, by SaveAuthCode and by
DeleteAuthRequest — while CreateAuthRequest with an empty userID followed by
SaveAuthCode produces done=true with an empty subject. -/
theorem authRequest_state_inv (s : OIDCStorage) (hinv : RequestsSubjectsNonEmpty s) :
    (∀ authReq userID id now, userID ≠ "" →
      RequestsSubjectsNonEmpty (s.CreateAuthRequest authReq userID id now).2) ∧
    (∀ id code s2, s.SaveAuthCode id code = .ok s2 → RequestsSubjectsNonEmpty s2) ∧
    (∀ id s2, s.DeleteAuthRequest id = .ok s2 → RequestsSubjectsNonEmpty s2) ∧
    (∀ k r, mapLookup k s.authRequestStore.requests = some r →
      r.IsDone = false ∨ (r.IsDone = true ∧ r.UserID ≠ "")) := by
  refine ⟨?_, ?_, ?_, ?_⟩
  · intro authReq userID id now hne p hp
    rcases mem_mapInsert_cases hp with hh | hh
    · rw [hh]
      exact hne
    · exact hinv p hh
  · intro id code s2 h p hp
    rcases hl : mapLookup id s.authRequestStore.requests with _ | r
    · simp [OIDCStorage.SaveAuthCode, AuthRequestStore.SaveAuthCode, hl] at h
    · simp only [OIDCStorage.SaveAuthCode, AuthRequestStore.SaveAuthCode, hl] at h
      injection h with h2
      rw [← h2] at hp
      rcases mem_mapInsert_cases hp with hh | hh
      · rw [hh]
        exact hinv (id, r) (mem_of_mapLookup hl)
      · exact hinv p hh
  · intro id s2 h p hp
    rcases hl : mapLookup id s.authRequestStore.requests with _ | r
    · simp [OIDCStorage.DeleteAuthRequest, AuthRequestStore.DeleteAuthRequest, hl] at h
    · simp only [OIDCStorage.DeleteAuthRequest, AuthRequestStore.DeleteAuthRequest, hl] at h
      injection h with h2
      rw [← h2] at hp
      exact hinv p (mem_of_mem_mapErase hp)
  · intro k r hl
    have hne := hinv _ (mem_of_mapLookup hl)
    rcases hdone : r.IsDone with _ | _
    · exact Or.inl rfl
    · exact Or.inr ⟨rfl, hne⟩

/-- Witness for C9: the preserved discipline on the sample request store. -/
theorem authRequest_state_inv_witness :
    RequestsSubjectsNonEmpty
      (sampleRequestStore.CreateAuthRequest sampleOIDCAuthRequest "u1" "q2" 5).2 ∧
    (sampleAuthRequest.IsDone = false ∨
      (sampleAuthRequest.IsDone = true ∧ sampleAuthRequest.UserID ≠ "")) :=
  ⟨(authRequest_state_inv sampleRequestStore (by decide)).1 sampleOIDCAuthRequest
      "u1" "q2" 5 (by decide),
    (authRequest_state_inv sampleRequestStore (by decide)).2.2.2 "q1"
      sampleAuthRequest (by decide)⟩

/-- C9 counterexample: creating a request with an empty userID and then
calling SaveAuthCode on it stores a request with done=true and an empty
subject. -/
theorem authRequest_state_inv_cex :
    ((emptyStore.CreateAuthRequest sampleOIDCAuthRequest "" "q1" 0).2.SaveAuthCode
        "q1" "code1").toOption.map
      (fun s2 => (mapLookup "q1" s2.authRequestStore.requests).map
        (fun r => (r.IsDone, r.UserID))) = some (some (true, "")) := by decide

/-- C1 (corrected): rotating with a stored currentRefreshToken deletes that
refresh token from both maps (so refresh lookup of it fails afterwards), but
the access token that was paired with it — the one whose RefreshToken
back-reference names it — is NOT deleted: it remains in the token map
untouched. -/
theorem rotation_keeps_paired_access_token (s : OIDCStorage) (req : AuthRequest)
    (currentRefreshToken accessTokenID refreshTokenID : String) (now : Nat)
    (oldToken : Token)
    (hne : currentRefreshToken ≠ "")
    (hfresh : refreshTokenID ≠ currentRefreshToken)
    (hold : mapLookup currentRefreshToken s.refreshTokens = some oldToken) :
    ∀ res s2, s.CreateAccessAndRefreshTokens (.authRequest req) currentRefreshToken
        accessTokenID refreshTokenID now = (res, s2) →
      res = .ok (accessTokenID, refreshTokenID, now + 3600) ∧
      mapLookup currentRefreshToken s2.refreshTokens = none ∧
      mapLookup oldToken.ID s2.tokens = none ∧
      s2.GetRefreshTokenInfo oldToken.ClientID currentRefreshToken =
        .error ErrInvalidRefreshToken ∧
      (∀ a A, mapLookup a s.tokens = some A → A.RefreshToken = currentRefreshToken →
        a ≠ oldToken.ID → a ≠ accessTokenID → a ≠ refreshTokenID →
        mapLookup a s2.tokens = some A) := by
  intro res s2 heq
  simp only [OIDCStorage.CreateAccessAndRefreshTokens] at heq
  rw [if_pos hne, mapLookup_insert, if_neg hfresh, hold] at heq
  injection heq with h1 h2
  subst h1
  subst h2
  refine ⟨rfl, ?_, ?_, ?_, ?_⟩
  · rw [mapLookup_erase, if_pos rfl]
  · rw [mapLookup_erase, if_pos rfl]
  · simp [OIDCStorage.GetRefreshTokenInfo, mapLookup_erase]
  · intro a A hA hpair h1 h3 h4
    rw [mapLookup_erase, if_neg h1, mapLookup_insert,
      if_neg (fun hh => h4 hh.symm), mapLookup_insert,
      if_neg (fun hh => h3 hh.symm)]
    exact hA

/-- Witness for C1: rotating the sample store with supersedes=r1 keeps the
paired access token a1 stored while removing r1 from the refresh map. -/
theorem rotation_keeps_paired_access_token_witness :
    mapLookup "a1" ((sampleTokenStore.CreateAccessAndRefreshTokens
        (.authRequest sampleAuthRequest) "r1" "a2" "r3" 50).2.tokens) =
      some sampleAccessToken ∧
    mapLookup "r1" ((sampleTokenStore.CreateAccessAndRefreshTokens
        (.authRequest sampleAuthRequest) "r1" "a2" "r3" 50).2.refreshTokens) = none :=
  have h := rotation_keeps_paired_access_token sampleTokenStore sampleAuthRequest
    "r1" "a2" "r3" 50 sampleRefreshToken (by decide) (by decide) (by decide)
    (sampleTokenStore.CreateAccessAndRefreshTokens
      (.authRequest sampleAuthRequest) "r1" "a2" "r3" 50).1
    (sampleTokenStore.CreateAccessAndRefreshTokens
      (.authRequest sampleAuthRequest) "r1" "a2" "r3" 50).2 rfl
  ⟨h.2.2.2.2 "a1" sampleAccessToken (by decide) (by decide) (by decide) (by decide)
      (by decide),
    h.2.1⟩

/-- C1 counterexample: after rotation superseding r1, the access token a1
that was paired with r1 is still stored and still introspects as active,
although r1 itself is gone from both maps. -/
theorem rotation_keeps_paired_access_token_cex :
    sampleAccessToken.RefreshToken = "r1" ∧
    mapLookup "r1" sampleTokenStore.refreshTokens = some sampleRefreshToken ∧
    mapLookup "a1" sampleTokenStore.tokens = some sampleAccessToken ∧
    mapLookup "a1" ((sampleTokenStore.CreateAccessAndRefreshTokens
        (.authRequest sampleAuthRequest) "r1" "a2" "r3" 50).2.tokens) =
      some sampleAccessToken ∧
    mapLookup "r1" ((sampleTokenStore.CreateAccessAndRefreshTokens
        (.authRequest sampleAuthRequest) "r1" "a2" "r3" 50).2.refreshTokens) = none ∧
    (((sampleTokenStore.CreateAccessAndRefreshTokens
          (.authRequest sampleAuthRequest) "r1" "a2" "r3" 50).2.SetIntrospectionFromToken
        sampleIntrospection "a1" "u1" "c1" 50).toOption.map
      (fun r => r.Active)) = some true := by decide

/-- C8 (confirmed): on well-formed token state, TerminateSession removes
every token of the given subject and client from both maps and leaves every
other token in place in both maps. -/
theorem terminateSession_sweep (s : OIDCStorage) (userID clientID : String)
    (hwf : TokensWF s) :
    (∀ k t, mapLookup k s.tokens = some t →
      ((t.UserID = userID ∧ t.ClientID = clientID) →
        mapLookup k (s.TerminateSession userID clientID).tokens = none) ∧
      (¬(t.UserID = userID ∧ t.ClientID = clientID) →
        mapLookup k (s.TerminateSession userID clientID).tokens = some t)) ∧
    (∀ k t, mapLookup k s.refreshTokens = some t →
      ((t.UserID = userID ∧ t.ClientID = clientID) →
        mapLookup k (s.TerminateSession userID clientID).refreshTokens = none) ∧
      (¬(t.UserID = userID ∧ t.ClientID = clientID) →
        mapLookup k (s.TerminateSession userID clientID).refreshTokens = some t)) := by
  obtain ⟨hnd1, hnd2, hids, href⟩ := hwf
  constructor
  · intro k t hlk
    have hts : (s.TerminateSession userID clientID).tokens =
        s.tokens.filter (fun p => !(p.2.UserID == userID && p.2.ClientID == clientID)) :=
      rfl
    constructor
    · intro hm
      rw [hts, mapLookup_filter _ hnd1, hlk]
      simp [hm.1, hm.2]
    · intro hm
      rw [hts, mapLookup_filter _ hnd1, hlk]
      simp
      exact fun h1 h2 => hm ⟨h1, h2⟩
  · intro k t hlk
    have hrt1 : t.TokenType = "refresh" := (href (k, t) (mem_of_mapLookup hlk)).1
    have hrt2 : mapLookup k s.tokens = some t := (href (k, t) (mem_of_mapLookup hlk)).2
    have hrs : (s.TerminateSession userID clientID).refreshTokens =
        s.refreshTokens.filter (fun p => !(s.tokens.any (fun q =>
          q.2.UserID == userID && q.2.ClientID == clientID &&
          q.2.TokenType == "refresh" && q.2.ID == p.1))) := rfl
    constructor
    · intro hm
      have hmem : (k, t) ∈ s.tokens := mem_of_mapLookup hrt2
      have hid : t.ID = k := hids (k, t) hmem
      have hany : s.tokens.any (fun q =>
          q.2.UserID == userID && q.2.ClientID == clientID &&
          q.2.TokenType == "refresh" && q.2.ID == k) = true := by
        refine List.any_eq_true.mpr ⟨(k, t), hmem, ?_⟩
        simp [hm.1, hm.2, hrt1, hid]
      rw [hrs, mapLookup_filter _ hnd2, hlk]
      simp [hany]
    · intro hm
      have hany : s.tokens.any (fun q =>
          q.2.UserID == userID && q.2.ClientID == clientID &&
          q.2.TokenType == "refresh" && q.2.ID == k) = false := by
        by_contra hb
        rw [Bool.not_eq_false, List.any_eq_true] at hb
        obtain ⟨q, hq, hq2⟩ := hb
        obtain ⟨kq, tq⟩ := q
        simp only [Bool.and_eq_true, beq_iff_eq] at hq2
        have hkq : kq = k := ((hids (kq, tq) hq).symm).trans hq2.2
        have hlq : mapLookup k s.tokens = some tq :=
          mapLookup_of_mem_nodup hnd1 (hkq ▸ hq)
        rw [hrt2] at hlq
        injection hlq with he
        have he2 : t = tq := he
        refine hm ⟨?_, ?_⟩
        · rw [he2]
          exact hq2.1.1.1
        · rw [he2]
          exact hq2.1.1.2
      rw [hrs, mapLookup_filter _ hnd2, hlk]
      simp [hany]

/-- Witness for C8: terminating the session of u1 at c1 on the sample store
removes a1 and r1 but keeps the other user's refresh token r2. -/
theorem terminateSession_sweep_witness :
    mapLookup "a1" (sampleTokenStore.TerminateSession "u1" "c1").tokens = none ∧
    mapLookup "r1" (sampleTokenStore.TerminateSession "u1" "c1").refreshTokens = none ∧
    mapLookup "r2" (sampleTokenStore.TerminateSession "u1" "c1").refreshTokens =
      some sampleOtherToken :=
  have h := terminateSession_sweep sampleTokenStore "u1" "c1" (by decide)
  ⟨(h.1 "a1" sampleAccessToken (by decide)).1 (by decide),
    (h.2 "r1" sampleRefreshToken (by decide)).1 (by decide),
    (h.2 "r2" sampleOtherToken (by decide)).2 (by decide)⟩

theorem applyOp_keys (op : StoreOp) (s : OIDCStorage) :
    (applyOp op s).signingKey = s.signingKey ∧ (applyOp op s).keyID = s.keyID := by
  cases op with
  | createAuthRequest a u id now => exact ⟨rfl, rfl⟩
  | saveAuthCode id code =>
    rcases hl : s.authRequestStore.SaveAuthCode id code with e | st <;>
      simp [applyOp, OIDCStorage.SaveAuthCode, hl]
  | deleteAuthRequest id =>
    rcases hl : s.authRequestStore.DeleteAuthRequest id with e | st <;>
      simp [applyOp, OIDCStorage.DeleteAuthRequest, hl]
  | createAccessToken request tokenID now =>
    cases request with
    | authRequest a => exact ⟨rfl, rfl⟩
    | refreshTokenRequest r => exact ⟨rfl, rfl⟩
  | createAccessAndRefreshTokens request crt aid rid now =>
    cases request with
    | authRequest a =>
      refine ⟨?_, ?_⟩ <;>
        · simp only [applyOp, OIDCStorage.CreateAccessAndRefreshTokens]
          split
          · split <;> rfl
          · rfl
    | refreshTokenRequest r => exact ⟨rfl, rfl⟩
  | terminateSession u c => exact ⟨rfl, rfl⟩
  | revokeToken t u c =>
    rcases hl : mapLookup t s.tokens with _ | tok
    · rcases hl2 : mapLookup t s.refreshTokens with _ | tok2 <;>
        simp [applyOp, OIDCStorage.RevokeToken, hl, hl2]
    · simp [applyOp, OIDCStorage.RevokeToken, hl]

theorem applyOps_keys (ops : List StoreOp) (s : OIDCStorage) :
    (applyOps ops s).signingKey = s.signingKey ∧ (applyOps ops s).keyID = s.keyID := by
  induction ops generalizing s with
  | nil => exact ⟨rfl, rfl⟩
  | cons op rest ih =>
    have h1 := applyOp_keys op s
    have h2 := ih (applyOp op s)
    exact ⟨h2.1.trans h1.1, h2.2.trans h1.2⟩

/-- C10 (confirmed): the signing key, key ID and algorithm returned by
SigningKey are unchanged by any sequence of store operations; KeySet
publishes exactly the public half of that key under the same key ID and
algorithm; and GetKeyByIDAndClientID resolves precisely the active key ID to
the public key, rejecting every other key ID with "key not found". -/
theorem keyManager_stable (s : OIDCStorage) (keyID clientID : String)
    (ops : List StoreOp) :
    (applyOps ops s).SigningKey = s.SigningKey ∧
    (applyOps ops s).KeySet = s.KeySet ∧
    s.KeySet = [{ keyID := s.SigningKey.keyID, alg := s.SigningKey.alg,
                  key := s.SigningKey.key.PublicKey }] ∧
    ((∃ jwk, s.GetKeyByIDAndClientID keyID clientID = .ok jwk) ↔ keyID = s.keyID) ∧
    (keyID = s.keyID →
      s.GetKeyByIDAndClientID keyID clientID =
        .ok { KeyID := s.SigningKey.keyID, Algorithm := "RS256", Use := "sig",
              Key := s.SigningKey.key.PublicKey }) ∧
    (keyID ≠ s.keyID →
      s.GetKeyByIDAndClientID keyID clientID = .error "key not found") := by
  have hk := applyOps_keys ops s
  refine ⟨?_, ?_, rfl, ?_, ?_, ?_⟩
  · simp [OIDCStorage.SigningKey, hk.1, hk.2]
  · simp [OIDCStorage.KeySet, hk.1, hk.2]
  · constructor
    · rintro ⟨jwk, hj⟩
      by_cases hkid : keyID = s.keyID
      · exact hkid
      · simp [OIDCStorage.GetKeyByIDAndClientID, hkid] at hj
    · intro hkid
      refine ⟨{ KeyID := s.keyID, Algorithm := "RS256", Use := "sig",
                Key := s.signingKey.PublicKey }, ?_⟩
      simp [OIDCStorage.GetKeyByIDAndClientID, hkid]
  · intro hkid
    simp [OIDCStorage.GetKeyByIDAndClientID, hkid, OIDCStorage.SigningKey]
  · intro hkid
    simp [OIDCStorage.GetKeyByIDAndClientID, hkid]

/-- Witness for C10: the sample store's key survives a terminate-session
call, its active key ID "kid1" resolves, and "other" is rejected. -/
theorem keyManager_stable_witness :
    (applyOps [StoreOp.terminateSession "u1" "c1"] sampleTokenStore).SigningKey =
      sampleTokenStore.SigningKey ∧
    sampleTokenStore.GetKeyByIDAndClientID "kid1" "c1" =
      .ok { KeyID := sampleTokenStore.SigningKey.keyID, Algorithm := "RS256",
            Use := "sig", Key := sampleTokenStore.SigningKey.key.PublicKey } ∧
    sampleTokenStore.GetKeyByIDAndClientID "other" "c1" = .error "key not found" :=
  have h := keyManager_stable sampleTokenStore "kid1" "c1"
    [StoreOp.terminateSession "u1" "c1"]
  have h2 := keyManager_stable sampleTokenStore "other" "c1" []
  ⟨h.1, h.2.2.2.2.1 (by decide), h2.2.2.2.2.2 (by decide)⟩

theorem mapLookup_foldl_insert {α : Type} :
    ∀ l : List (String × α), keysNodup l → ∀ (acc : List (String × α)) (k : String),
      mapLookup k (l.foldl (fun acc kv => mapInsert kv.1 kv.2 acc) acc) =
        match mapLookup k l with
        | some v => some v
        | none => mapLookup k acc := by
  intro l
  induction l with
  | nil =>
    intro _ acc k
    simp [mapLookup]
  | cons p rest ih =>
    intro hnd acc k
    obtain ⟨k0, v0⟩ := p
    simp only [keysNodup, List.map_cons, List.nodup_cons] at hnd
    rw [List.foldl_cons, ih hnd.2]
    by_cases hk : k0 = k
    · subst hk
      have h1 : mapLookup k0 rest = none := mapLookup_eq_none_of_not_mem hnd.1
      rw [h1, mapLookup_insert]
      simp [mapLookup]
    · rw [mapLookup_insert, if_neg hk]
      rw [mapLookup, if_neg hk]

theorem mapLookup_insert_isSome {α : Type} {k : String} {m : List (String × α)}
    (j : String) (v : α) (h : (mapLookup k m).isSome) :
    (mapLookup k (mapInsert j v m)).isSome := by
  rw [mapLookup_insert]
  by_cases hj : j = k
  · simp [hj]
  · simp [hj, h]

theorem mapLookup_foldl_insert_isSome {α : Type} (l : List (String × α))
    (acc : List (String × α)) (k : String) (h : (mapLookup k acc).isSome) :
    (mapLookup k (l.foldl (fun acc kv => mapInsert kv.1 kv.2 acc) acc)).isSome := by
  induction l generalizing acc with
  | nil => exact h
  | cons p rest ih =>
    rw [List.foldl_cons]
    exact ih _ (mapLookup_insert_isSome p.1 p.2 h)

theorem copyClaim_isSome_mono (key : String) (uc claims : List (String × ClaimValue))
    (k : String) (h : (mapLookup k claims).isSome) :
    (mapLookup k (copyClaim key uc claims)).isSome := by
  unfold copyClaim
  cases mapLookup key uc
  · exact h
  · exact mapLookup_insert_isSome _ _ h

theorem copyClaim_isSome_self (key : String) (uc claims : List (String × ClaimValue))
    (h : (mapLookup key uc).isSome) :
    (mapLookup key (copyClaim key uc claims)).isSome := by
  rcases hu : mapLookup key uc with _ | v
  · rw [hu] at h
    simp at h
  · simp [copyClaim, hu, mapLookup_insert]

theorem getClaims_std_isSome (u : OIDCUser) :
    (mapLookup "sub" u.GetClaims).isSome ∧ (mapLookup "email" u.GetClaims).isSome ∧
    (mapLookup "email_verified" u.GetClaims).isSome ∧
    (mapLookup "preferred_username" u.GetClaims).isSome ∧
    (mapLookup "given_name" u.GetClaims).isSome ∧
    (mapLookup "family_name" u.GetClaims).isSome ∧
    (mapLookup "name" u.GetClaims).isSome ∧ (mapLookup "locale" u.GetClaims).isSome := by
  unfold OIDCUser.GetClaims
  refine ⟨?_, ?_, ?_, ?_, ?_, ?_, ?_, ?_⟩ <;>
    exact mapLookup_foldl_insert_isSome _ _ _ (by simp [mapLookup_insert])

theorem applyScopeClaims_isSome_mono (uc claims : List (String × ClaimValue))
    (scope k : String) (h : (mapLookup k claims).isSome) :
    (mapLookup k (applyScopeClaims uc claims scope)).isSome := by
  unfold applyScopeClaims
  by_cases h1 : scope = "profile"
  · rw [if_pos h1]
    exact copyClaim_isSome_mono _ _ _ _ (copyClaim_isSome_mono _ _ _ _
      (copyClaim_isSome_mono _ _ _ _ (copyClaim_isSome_mono _ _ _ _
        (copyClaim_isSome_mono _ _ _ _ h))))
  · rw [if_neg h1]
    by_cases h2 : scope = "email"
    · rw [if_pos h2]
      exact copyClaim_isSome_mono _ _ _ _ (copyClaim_isSome_mono _ _ _ _ h)
    · rw [if_neg h2]
      exact h

theorem foldl_applyScope_isSome_mono (uc : List (String × ClaimValue))
    (scopes : List String) (acc : List (String × ClaimValue)) (k : String)
    (h : (mapLookup k acc).isSome) :
    (mapLookup k (scopes.foldl (applyScopeClaims uc) acc)).isSome := by
  induction scopes generalizing acc with
  | nil => exact h
  | cons sc rest ih =>
    rw [List.foldl_cons]
    exact ih _ (applyScopeClaims_isSome_mono _ _ _ _ h)

theorem applyScopeClaims_profile (uc acc : List (String × ClaimValue))
    (huc : (mapLookup "name" uc).isSome ∧ (mapLookup "given_name" uc).isSome ∧
      (mapLookup "family_name" uc).isSome ∧
      (mapLookup "preferred_username" uc).isSome ∧ (mapLookup "locale" uc).isSome) :
    (mapLookup "name" (applyScopeClaims uc acc "profile")).isSome ∧
    (mapLookup "given_name" (applyScopeClaims uc acc "profile")).isSome ∧
    (mapLookup "family_name" (applyScopeClaims uc acc "profile")).isSome ∧
    (mapLookup "preferred_username" (applyScopeClaims uc acc "profile")).isSome ∧
    (mapLookup "locale" (applyScopeClaims uc acc "profile")).isSome := by
  unfold applyScopeClaims
  rw [if_pos rfl]
  refine ⟨?_, ?_, ?_, ?_, ?_⟩
  · exact copyClaim_isSome_mono _ _ _ _ (copyClaim_isSome_mono _ _ _ _
      (copyClaim_isSome_mono _ _ _ _ (copyClaim_isSome_mono _ _ _ _
        (copyClaim_isSome_self _ _ _ huc.1))))
  · exact copyClaim_isSome_mono _ _ _ _ (copyClaim_isSome_mono _ _ _ _
      (copyClaim_isSome_mono _ _ _ _ (copyClaim_isSome_self _ _ _ huc.2.1)))
  · exact copyClaim_isSome_mono _ _ _ _ (copyClaim_isSome_mono _ _ _ _
      (copyClaim_isSome_self _ _ _ huc.2.2.1))
  · exact copyClaim_isSome_mono _ _ _ _ (copyClaim_isSome_self _ _ _ huc.2.2.2.1)
  · exact copyClaim_isSome_self _ _ _ huc.2.2.2.2

theorem applyScopeClaims_email (uc acc : List (String × ClaimValue))
    (huc : (mapLookup "email" uc).isSome ∧ (mapLookup "email_verified" uc).isSome) :
    (mapLookup "email" (applyScopeClaims uc acc "email")).isSome ∧
    (mapLookup "email_verified" (applyScopeClaims uc acc "email")).isSome := by
  unfold applyScopeClaims
  rw [if_neg (by simp), if_pos rfl]
  exact ⟨copyClaim_isSome_mono _ _ _ _ (copyClaim_isSome_self _ _ _ huc.1),
    copyClaim_isSome_self _ _ _ huc.2⟩

theorem profile_keys_after_fold (uc : List (String × ClaimValue)) :
    ∀ (scopes : List String) (acc : List (String × ClaimValue)),
      "profile" ∈ scopes →
      ((mapLookup "name" uc).isSome ∧ (mapLookup "given_name" uc).isSome ∧
        (mapLookup "family_name" uc).isSome ∧
        (mapLookup "preferred_username" uc).isSome ∧ (mapLookup "locale" uc).isSome) →
      (mapLookup "name" (scopes.foldl (applyScopeClaims uc) acc)).isSome ∧
      (mapLookup "given_name" (scopes.foldl (applyScopeClaims uc) acc)).isSome ∧
      (mapLookup "family_name" (scopes.foldl (applyScopeClaims uc) acc)).isSome ∧
      (mapLookup "preferred_username" (scopes.foldl (applyScopeClaims uc) acc)).isSome ∧
      (mapLookup "locale" (scopes.foldl (applyScopeClaims uc) acc)).isSome := by
  intro scopes
  induction scopes with
  | nil =>
    intro acc hin
    cases hin
  | cons sc rest ih =>
    intro acc hin huc
    rw [List.foldl_cons]
    rcases List.mem_cons.mp hin with hh | hh
    · subst hh
      have hstep := applyScopeClaims_profile uc acc huc
      exact ⟨foldl_applyScope_isSome_mono _ _ _ _ hstep.1,
        foldl_applyScope_isSome_mono _ _ _ _ hstep.2.1,
        foldl_applyScope_isSome_mono _ _ _ _ hstep.2.2.1,
        foldl_applyScope_isSome_mono _ _ _ _ hstep.2.2.2.1,
        foldl_applyScope_isSome_mono _ _ _ _ hstep.2.2.2.2⟩
    · exact ih _ hh huc

theorem email_keys_after_fold (uc : List (String × ClaimValue)) :
    ∀ (scopes : List String) (acc : List (String × ClaimValue)),
      "email" ∈ scopes →
      ((mapLookup "email" uc).isSome ∧ (mapLookup "email_verified" uc).isSome) →
      (mapLookup "email" (scopes.foldl (applyScopeClaims uc) acc)).isSome ∧
      (mapLookup "email_verified" (scopes.foldl (applyScopeClaims uc) acc)).isSome := by
  intro scopes
  induction scopes with
  | nil =>
    intro acc hin
    cases hin
  | cons sc rest ih =>
    intro acc hin huc
    rw [List.foldl_cons]
    rcases List.mem_cons.mp hin with hh | hh
    · subst hh
      have hstep := applyScopeClaims_email uc acc huc
      exact ⟨foldl_applyScope_isSome_mono _ _ _ _ hstep.1,
        foldl_applyScope_isSome_mono _ _ _ _ hstep.2⟩
    · exact ih _ hh huc

/-- C5 (corrected): the private-claims map contains the five profile claims
when "profile" is among the scopes and the two email claims when "email" is,
and the user's custom claim map always overrides on top; but `sub` is never
added by this method — with the empty scope set the result is exactly the
user's custom claim map, which need not contain `sub`. -/
theorem privateClaims_scope_gating (s : OIDCStorage) (userID clientID : String)
    (scopes : List String) (user : OIDCUser)
    (huser : mapLookup userID s.userInfoStore.users = some user)
    (hnd : keysNodup user.Claims) :
    ∃ m, s.GetPrivateClaimsFromScopes userID clientID scopes = .ok m ∧
      ("profile" ∈ scopes →
        (mapLookup "name" m).isSome ∧ (mapLookup "given_name" m).isSome ∧
        (mapLookup "family_name" m).isSome ∧
        (mapLookup "preferred_username" m).isSome ∧ (mapLookup "locale" m).isSome) ∧
      ("email" ∈ scopes →
        (mapLookup "email" m).isSome ∧ (mapLookup "email_verified" m).isSome) ∧
      (∀ k v, mapLookup k user.Claims = some v → mapLookup k m = some v) ∧
      (scopes = [] → ∀ k, mapLookup k m = mapLookup k user.Claims) := by
  refine ⟨user.Claims.foldl (fun acc kv => mapInsert kv.1 kv.2 acc)
    (scopes.foldl (applyScopeClaims user.GetClaims) []), ?_, ?_, ?_, ?_, ?_⟩
  · simp [OIDCStorage.GetPrivateClaimsFromScopes, UserInfoStore.GetUserByID, huser]
  · intro hp
    have hstd := getClaims_std_isSome user
    have hbase := profile_keys_after_fold user.GetClaims scopes [] hp
      ⟨hstd.2.2.2.2.2.2.1, hstd.2.2.2.2.1, hstd.2.2.2.2.2.1, hstd.2.2.2.1,
        hstd.2.2.2.2.2.2.2⟩
    exact ⟨mapLookup_foldl_insert_isSome _ _ _ hbase.1,
      mapLookup_foldl_insert_isSome _ _ _ hbase.2.1,
      mapLookup_foldl_insert_isSome _ _ _ hbase.2.2.1,
      mapLookup_foldl_insert_isSome _ _ _ hbase.2.2.2.1,
      mapLookup_foldl_insert_isSome _ _ _ hbase.2.2.2.2⟩
  · intro hp
    have hstd := getClaims_std_isSome user
    have hbase := email_keys_after_fold user.GetClaims scopes [] hp
      ⟨hstd.2.1, hstd.2.2.1⟩
    exact ⟨mapLookup_foldl_insert_isSome _ _ _ hbase.1,
      mapLookup_foldl_insert_isSome _ _ _ hbase.2⟩
  · intro k v hkv
    rw [mapLookup_foldl_insert user.Claims hnd _ k, hkv]
  · intro hsc k
    subst hsc
    rw [mapLookup_foldl_insert user.Claims hnd _ k]
    cases mapLookup k user.Claims <;> simp [mapLookup]

/-- Witness for C5: the demo user with scope "profile" gets the given-name
claim and keeps the custom role claim; with no scopes the result is the bare
custom claim map. -/
theorem privateClaims_scope_gating_witness :
    ∃ m, sampleUserStore.GetPrivateClaimsFromScopes "user1" "c1" ["profile"] = .ok m ∧
      (mapLookup "given_name" m).isSome ∧ mapLookup "role" m = some (.str "user") :=
  have h := privateClaims_scope_gating sampleUserStore "user1" "c1" ["profile"]
    sampleUser (by decide) (by decide)
  ⟨h.choose, h.choose_spec.1, (h.choose_spec.2.1 (by decide)).2.1,
    h.choose_spec.2.2.2.1 "role" (.str "user") (by decide)⟩

/-- C5 counterexample: for the demo user and the empty scope set the method
returns exactly the custom claim map, which contains no `sub` claim — the
claimed "always contains sub" fails. -/
theorem privateClaims_no_sub_cex :
    mapLookup "user1" sampleUserStore.userInfoStore.users = some sampleUser ∧
    sampleUserStore.GetPrivateClaimsFromScopes "user1" "c1" [] =
      .ok [("role", ClaimValue.str "user")] ∧
    (sampleUserStore.GetPrivateClaimsFromScopes "user1" "c1" []).toOption.map
      (fun m => mapLookup "sub" m) = some none := by decide
